import Mathlib

/-!
Shallow embedding of the nrtk combinatorial sweep engine: the
LinSpace/Step perturb-image factories, configuration round-tripping
through the perturber type registry, the combination-count formula used
by the blackbox-response generator, and the perturber error contracts.
Machine floats are modelled by exact rationals; Python exceptions by an
explicit error type carried in `Except`.
-/

namespace Nrtk

/-- Python exception classes relevant to the embedded code. -/
inductive PyErr where
  | keyErr (key : String) : PyErr
  | valueErr (msg : String) : PyErr
  | indexErr : PyErr
  | typeErr (msg : String) : PyErr
  | notImplErr (msg : String) : PyErr
  deriving DecidableEq

/-- Whether an error value is of ValueError class. -/
def PyErr.isValueErr : PyErr → Bool
  | .valueErr _ => true
  | _ => false

/-- Values of numpy linspace with endpoint=False: `start + i * (stop - start) / num`
for `i = 0 .. num - 1` (exact-rational model of the float computation). -/
def linspaceVals (start stop : ℚ) (num : ℕ) : List ℚ :=
  (List.range num).map fun (i : ℕ) => start + (i : ℚ) * ((stop - start) / (num : ℚ))

/-- numpy linspace with endpoint=False; a negative sample count raises ValueError. -/
def npLinspace (start stop : ℚ) (num : ℤ) : Except PyErr (List ℚ) :=
  if num < 0 then
    .error (.valueErr ("Number of samples, " ++ toString num ++ ", must be non-negative"))
  else
    .ok (linspaceVals start stop num.toNat)

/-- Number of elements produced by numpy arange(start, stop, step):
the ceiling of (stop - start) / step when positive, else zero. -/
def arangeLen (start stop step : ℚ) : ℕ :=
  if step = 0 then 0
  else
    let n := (stop - start) / step
    if n ≤ 0 then 0 else n.ceil.toNat

/-- Values of numpy arange(start, stop, step): `start + i * step`. -/
def npArange (start stop step : ℚ) : List ℚ :=
  (List.range (arangeLen start stop step)).map fun (i : ℕ) => start + (i : ℚ) * step

/-- A registered PerturbImage implementation type: its class name and the
constructor parameters with their default values. -/
structure PerturberType where
  name : String
  defaults : List (String × ℚ)
  deriving DecidableEq

/-- A constructed perturber instance: its type and its configuration mapping
(one entry per constructor parameter). -/
structure Perturber where
  ptype : PerturberType
  config : List (String × ℚ)
  deriving DecidableEq

/-- Set a key in an association list, overriding an existing entry. -/
def setKey : List (String × ℚ) → String → ℚ → List (String × ℚ)
  | [], k, v => [(k, v)]
  | (k0, v0) :: rest, k, v =>
      if k0 = k then (k, v) :: rest else (k0, v0) :: setKey rest k v

/-- Construct a fresh perturber instance of the given type with the single
parameter `key` set to `v`, all other parameters at their defaults. -/
def constructPerturber (t : PerturberType) (key : String) (v : ℚ) : Perturber :=
  ⟨t, setKey t.defaults key v⟩

/-- Exported configuration of a LinSpace factory: the perturber class name
(not the type object), the varied key and the range specification; `step`
here is the integer sample count. -/
structure LinSpaceConfig where
  perturber : String
  theta_key : String
  start : ℚ
  stop : ℚ
  step : ℤ
  deriving DecidableEq

/-- Exported configuration of a Step factory: the perturber class name, the
varied key and the range specification; `step` here is the stride. -/
structure StepConfig where
  perturber : String
  theta_key : String
  start : ℚ
  stop : ℚ
  step : ℚ
  deriving DecidableEq

/-- LinSpacePerturbImageFactory, from
src/nrtk/impls/perturb_image_factory/generic/linspace_step.py: varies
`theta_key` from `start` to `stop`, producing `step` instances. -/
structure LinSpacePerturbImageFactory where
  perturber : PerturberType
  theta_key : String
  start : ℚ
  stop : ℚ
  step : ℤ
  deriving DecidableEq

/-- The thetas property of LinSpacePerturbImageFactory: empty when
`start == stop`, otherwise `np.linspace(start, stop, step, endpoint=False)`. -/
def LinSpacePerturbImageFactory.thetas (f : LinSpacePerturbImageFactory) :
    Except PyErr (List ℚ) :=
  if f.start = f.stop then .ok [] else npLinspace f.start f.stop f.step

/-- Python len(factory): the length of the thetas sequence. -/
def LinSpacePerturbImageFactory.len (f : LinSpacePerturbImageFactory) :
    Except PyErr ℕ :=
  f.thetas.map List.length

/-- get_config of LinSpacePerturbImageFactory: stores the perturber class
NAME together with theta_key, start, stop and step. -/
def LinSpacePerturbImageFactory.get_config (f : LinSpacePerturbImageFactory) :
    LinSpaceConfig :=
  ⟨f.perturber.name, f.theta_key, f.start, f.stop, f.step⟩

/-- The name-to-type dictionary built by from_config over the registered
implementations (later entries override earlier ones, as in a Python dict
comprehension). -/
def typeDict (impls : List PerturberType) : List (String × PerturberType) :=
  impls.foldl (fun d t => setKeyT d t.name t) []
where
  /-- Association-list update for PerturberType values. -/
  setKeyT : List (String × PerturberType) → String → PerturberType →
      List (String × PerturberType)
    | [], k, v => [(k, v)]
    | (k0, v0) :: rest, k, v =>
        if k0 = k then (k, v) :: rest else (k0, v0) :: setKeyT rest k v

/-- from_config of LinSpacePerturbImageFactory (from src): replaces the stored
name by `type_dict[name]` — an unregistered name raises a raw KeyError — and
reconstructs the factory from the remaining fields. -/
def LinSpacePerturbImageFactory.from_config (impls : List PerturberType)
    (cfg : LinSpaceConfig) : Except PyErr LinSpacePerturbImageFactory :=
  match List.lookup cfg.perturber (typeDict impls) with
  | none => .error (.keyErr cfg.perturber)
  | some t => .ok ⟨t, cfg.theta_key, cfg.start, cfg.stop, cfg.step⟩

/-- Modelled from the spec: StepPerturbImageFactory
(nrtk/impls/perturb_image_factory/generic/step.py is not under src/; only its
tests are). Per spec 4.1 and the test expectations, the factory varies
`theta_key` over the arithmetic half-open range start, start+step, ...
strictly below stop. -/
structure StepPerturbImageFactory where
  perturber : PerturberType
  theta_key : String
  start : ℚ
  stop : ℚ
  step : ℚ
  deriving DecidableEq

/-- Modelled from the spec: the thetas of a Step factory are
numpy arange(start, stop, step). -/
def StepPerturbImageFactory.thetas (f : StepPerturbImageFactory) : List ℚ :=
  npArange f.start f.stop f.step

/-- Python len(factory) for the Step factory. -/
def StepPerturbImageFactory.len (f : StepPerturbImageFactory) : ℕ :=
  f.thetas.length

/-- Modelled from the spec: get_config of the Step factory stores the
perturber class name, theta_key and the range specification. -/
def StepPerturbImageFactory.get_config (f : StepPerturbImageFactory) :
    StepConfig :=
  ⟨f.perturber.name, f.theta_key, f.start, f.stop, f.step⟩

/-- Modelled from the spec: from_config of the Step factory validates the
stored perturber name against the registry and fails with a descriptive
ValueError naming the offending name as not a valid perturber (spec 6 and
the test expectation in test_step.py), rather than a raw lookup failure. -/
def StepPerturbImageFactory.from_config (impls : List PerturberType)
    (cfg : StepConfig) : Except PyErr StepPerturbImageFactory :=
  match List.lookup cfg.perturber (typeDict impls) with
  | none => .error (.valueErr (cfg.perturber ++ " is not a valid perturber."))
  | some t => .ok ⟨t, cfg.theta_key, cfg.start, cfg.stop, cfg.step⟩

/-- Modelled from the spec: PerturbImageFactory.get over a theta sequence
(the base class in nrtk/interfaces/perturb_image_factory.py is not under
src/). Per spec 4.2, a negative index or an index at or beyond the length
raises IndexError; a valid index constructs a fresh perturber with
`theta_key` set to the indexed value. -/
def factoryGet (thetas : List ℚ) (t : PerturberType) (key : String) (i : ℤ) :
    Except PyErr Perturber :=
  if h : i < 0 ∨ (thetas.length : ℤ) ≤ i then .error .indexErr
  else .ok (constructPerturber t key (thetas.get ⟨i.toNat, by omega⟩))

/-- Indexing into a Step factory. -/
def StepPerturbImageFactory.get (f : StepPerturbImageFactory) (i : ℤ) :
    Except PyErr Perturber :=
  factoryGet f.thetas f.perturber f.theta_key i

/-- Indexing into a LinSpace factory (the thetas property is evaluated
first, so its ValueError for a negative sample count propagates). -/
def LinSpacePerturbImageFactory.get (f : LinSpacePerturbImageFactory)
    (i : ℤ) : Except PyErr Perturber := do
  let ts ← f.thetas
  factoryGet ts f.perturber f.theta_key i

/-- Combination count as computed by generator_assertions in
tests/impls/gen_object_detector_blackbox_response/test_generator_utils.py:
starts from 1 when at least one factory is supplied and 0 otherwise, then
multiplies in every factory length. -/
def numPerturberCombos (lens : List ℕ) : ℕ :=
  lens.foldl (· * ·) (if lens.length ≠ 0 then 1 else 0)

/-- Modelled from the spec: the row-major Cartesian product of index ranges
of the given lengths, last index varying fastest (spec 4.3; the
FactoryComposite enumeration code is not under src/). -/
def combinations (lens : List ℕ) : List (List ℕ) :=
  lens.foldr (fun L acc => (List.range L).flatMap fun i => acc.map (i :: ·)) [[]]

/-- Chunking with explicit fuel: split a list into consecutive pieces of at
most `n` elements. With `fuel ≥ l.length` and `n ≥ 1` the fuel never runs
out. -/
def chunkFuel {α : Type} (n : ℕ) : ℕ → List α → List (List α)
  | _, [] => []
  | 0, l => [l]
  | fuel + 1, l => l.take n :: chunkFuel n fuel (l.drop n)

/-- Partition a list into consecutive batches of at most `n` elements (the
last batch may be smaller). -/
def chunkList {α : Type} (n : ℕ) (l : List α) : List (List α) :=
  chunkFuel n l.length l

/-- Modelled from the spec: a perturb-image factory as consumed by the
response generator — its ordered sequence of perturber instances, each an
image transformation (spec 2 and 4.4; the generator implementation behind
GenerateObjectDetectorBlackboxResponse is not under src/). -/
structure GenFactory (Image : Type) where
  instances : List (Image → Image)

/-- Modelled from the spec: the blackbox response generator (spec 4.4).
Zero factories yield zero combinations and empty outputs; otherwise, for
every combination of the row-major cross product, all perturbers are
applied in factory order to every dataset image, the perturbed images are
batched into consecutive batches of at most `batchSize` for the detector,
detections are scored per item against ground truth, and each row is
aggregated into one response-curve entry. -/
def generateBlackboxResponse {Image Det GT : Type}
    (factories : List (GenFactory Image)) (detect : Image → Det)
    (score : GT → Det → ℚ) (aggregate : List ℚ → ℚ)
    (dataset : List (Image × GT)) (batchSize : ℕ) :
    List ℚ × List (List ℚ) :=
  let combos :=
    if factories.isEmpty then []
    else combinations (factories.map fun f => f.instances.length)
  let rows := combos.map fun combo =>
    let perts := (factories.zip combo).map fun p => p.1.instances.getD p.2 id
    let perturbed := dataset.map fun d => perts.foldl (fun img g => g img) d.1
    let dets := (chunkList batchSize perturbed).flatMap fun b => b.map detect
    (dataset.map Prod.snd).zipWith score dets
  (rows.map aggregate, rows)

/-- Image array element type tags relevant to the noise perturbers. -/
inductive DType where
  | uint8 : DType
  | float32 : DType
  | float16 : DType
  | csingle : DType
  deriving DecidableEq

/-- Printable dtype name, used in the NotImplementedError message. -/
def DType.dname : DType → String
  | .uint8 => "uint8"
  | .float32 => "float32"
  | .float16 => "float16"
  | .csingle => "complex64"

/-- An image: a dtype tag and a flat pixel list; pixel values are modelled
as exact rationals. -/
structure PImage where
  dtype : DType
  pixels : List ℚ
  deriving DecidableEq

/-- Conversion of a pixel to the floating [0, 1] domain used by
skimage random_noise (img_as_float): uint8 values are scaled by 1/255,
float values pass through. -/
def toFloat01 (d : DType) (x : ℚ) : ℚ :=
  if d = .uint8 then x / 255 else x

/-- Conversion back from the [0, 1] domain to the stored dtype: uint8 values
are rescaled by 255 and rounded to an integer, float values pass through. -/
def fromFloat01 (d : DType) (x : ℚ) : ℚ :=
  if d = .uint8 then ((round (x * 255) : ℤ) : ℚ) else x

/-- Validity of a pixel for a dtype: uint8 pixels are integers in [0, 255];
float pixels are in [0, 1] as in the img_as_float domain. -/
def validPixel (d : DType) (x : ℚ) : Prop :=
  match d with
  | .uint8 => x.den = 1 ∧ 0 ≤ x ∧ x ≤ 255
  | .csingle => True
  | _ => 0 ≤ x ∧ x ≤ 1

/-- Validity of a whole image. -/
def validImage (img : PImage) : Prop :=
  ∀ x ∈ img.pixels, validPixel img.dtype x

/-- The five skimage random_noise modes wrapped by nrtk. -/
inductive NoiseKind where
  | salt : NoiseKind
  | pepper : NoiseKind
  | saltAndPepper : NoiseKind
  | gaussian : NoiseKind
  | speckle : NoiseKind
  deriving DecidableEq

/-- Random draw streams consumed by one perturb call: `rand` and `rand2` are
uniform draws in [0, 1), `z` is a unit-normal draw stream. -/
structure NoiseRng where
  rand : ℕ → ℚ
  rand2 : ℕ → ℚ
  z : ℕ → ℚ

/-- Modelled from the spec: a draw from rng.normal(mean, sqrt var). With
zero variance numpy returns the location parameter exactly; with positive
variance the draw is mean plus a scaled unit-normal sample, modelled through
the abstract stream `z` (the pixel-level noise math is out of scope,
spec 1). -/
def normalDraw (mean var : ℚ) (z : ℕ → ℚ) (i : ℕ) : ℚ :=
  mean + (if var = 0 then 0 else z i)

/-- Clip to the [0, 1] range as skimage random_noise does for the additive
modes. -/
def clip01 (x : ℚ) : ℚ :=
  max 0 (min x 1)

/-- Modelled from the spec: the per-pixel action of skimage random_noise in
the [0, 1] domain, for pixel index `i` with incoming value `y` (the
random_noise wrappers in nrtk/impls/perturb_image/skimage/random_noise.py
are not under src/). Salt sets pixels with `rand i < amount` to 1, pepper
sets them to 0, salt-and-pepper chooses between the two with `rand2 i`
against `svp`, gaussian adds a normal draw and clips, speckle adds the
pixel scaled by a normal draw and clips. -/
def noisePixel (k : NoiseKind) (amount svp mean var : ℚ) (rng : NoiseRng)
    (i : ℕ) (y : ℚ) : ℚ :=
  match k with
  | .salt => if rng.rand i < amount then 1 else y
  | .pepper => if rng.rand i < amount then 0 else y
  | .saltAndPepper =>
      if rng.rand i < amount then (if rng.rand2 i < svp then 1 else 0) else y
  | .gaussian => clip01 (y + normalDraw mean var rng.z i)
  | .speckle => clip01 (y + y * normalDraw mean var rng.z i)

/-- Modelled from the spec: one perturb call of an skimage noise perturber.
An unsupported dtype (complex) raises NotImplementedError; otherwise each
pixel is converted to the [0, 1] float domain, transformed, and converted
back to the image dtype. -/
def noisePerturb (k : NoiseKind) (amount svp mean var : ℚ) (rng : NoiseRng)
    (img : PImage) : Except PyErr PImage :=
  if img.dtype = .csingle then
    .error (.notImplErr ("Perturb not implemented for " ++ img.dtype.dname))
  else
    .ok ⟨img.dtype, img.pixels.mapIdx fun i x =>
      fromFloat01 img.dtype
        (noisePixel k amount svp mean var rng i (toFloat01 img.dtype x))⟩

/-- Modelled from the spec: the initial internal state of
numpy default_rng(seed) — a pure function of the bound seed value
(spec 5). -/
def rngInit (seed : ℕ) : ℕ :=
  seed

/-- Modelled from the spec: one state advance of the bound random generator,
returning the drawn word and the successor state (a 64-bit LCG stands in
for the PCG64 stream; only determinism matters here, spec 5). -/
def rngStep (state : ℕ) : ℕ × ℕ :=
  let s := (6364136223846793005 * state + 1442695040888963407) % 2 ^ 64
  (s, s)

/-- Deterministic derivation of the per-call draw streams from one drawn
word. -/
def streamsOf (d : ℕ) : NoiseRng :=
  ⟨fun i => ((d + 2 * i) % 2 ^ 32 : ℕ) / (2 ^ 32 : ℚ),
   fun i => ((d + 2 * i + 1) % 2 ^ 32 : ℕ) / (2 ^ 32 : ℚ),
   fun i => ((d + 3 * i) % 2 ^ 32 : ℕ) / (2 ^ 32 : ℚ)⟩

/-- Modelled from the spec: an skimage noise perturber instance — its noise
mode, parameters and the current internal state of its bound random
generator, which advances across perturb calls (spec 5). -/
structure SKNoisePerturber where
  kind : NoiseKind
  amount : ℚ
  svp : ℚ
  mean : ℚ
  var : ℚ
  state : ℕ

/-- Freshly construct a noise perturber from a bare seed value: the
generator state is reset to a pure function of the seed. -/
def mkSKNoisePerturber (k : NoiseKind) (amount svp mean var : ℚ)
    (seed : ℕ) : SKNoisePerturber :=
  ⟨k, amount, svp, mean, var, rngInit seed⟩

/-- One perturb call on an instance: draws from the bound generator, applies
the noise, and returns the instance with its generator state advanced. -/
def skPerturbCall (p : SKNoisePerturber) (img : PImage) :
    Except PyErr PImage × SKNoisePerturber :=
  let d := rngStep p.state
  (noisePerturb p.kind p.amount p.svp p.mean p.var (streamsOf d.1) img,
   { p with state := d.2 })

/-- Apply one instance to a sequence of input images, threading the
generator state across the calls as the Python object does. -/
def skApplySeq (p : SKNoisePerturber) : List PImage → List (Except PyErr PImage)
  | [] => []
  | img :: rest =>
      let r := skPerturbCall p img
      r.1 :: skApplySeq r.2 rest

/-- Modelled from the spec: JitterOTFPerturber.perturb
(nrtk/impls/perturb_image/pybsm/jitter_otf_perturber.py is not under src/).
When the perturber was constructed with a sensor and scenario, the
ground-sample-distance entry img_gsd must be present in additional_params;
its absence raises a ValueError naming the key, and with it present the
optics simulation `sim` runs (the simulation math is out of scope, spec 1,
so it is a parameter here). Without a sensor and scenario the default
simulation runs and no metadata is required. -/
def otfPerturb (sim : ℚ → PImage → PImage) (simDefault : PImage → PImage)
    (hasSensorScenario : Bool) (params : List (String × ℚ)) (img : PImage) :
    Except PyErr PImage :=
  if hasSensorScenario then
    match List.lookup "img_gsd" params with
    | none => .error (.valueErr "img_gsd must be present in image metadata")
    | some gsd => .ok (sim gsd img)
  else
    .ok (simDefault img)

/-- The varying parameter values of the DummyPerturber used throughout the
factory tests: param_1 defaults to 1 and param_2 to 2. -/
def dummyPerturberType : PerturberType :=
  ⟨"DummyPerturber", [("param_1", 1), ("param_2", 2)]⟩

/-- A list of rationals is in strictly ascending order. -/
def listAscending (l : List ℚ) : Prop :=
  ∀ i j : Fin l.length, (i : ℕ) < (j : ℕ) → l.get i < l.get j

/-- Consecutive elements of a list differ by exactly `d`. -/
def evenlySpaced (l : List ℚ) (d : ℚ) : Prop :=
  ∀ i : ℕ, ∀ h : i + 1 < l.length,
    l.get ⟨i + 1, h⟩ - l.get ⟨i, Nat.lt_of_succ_lt h⟩ = d

/-! Helper lemmas. -/

/-- Unfolding helper for integer literals inside toNat. -/
theorem intToNatOfNat (n : ℕ) :
    Int.toNat (no_index (OfNat.ofNat n)) = OfNat.ofNat n :=
  rfl

theorem linspaceVals_length (s t : ℚ) (n : ℕ) :
    (linspaceVals s t n).length = n := by
  unfold linspaceVals
  rw [List.length_map, List.length_range]

theorem linspaceVals_get (s t : ℚ) (n : ℕ) (i : ℕ)
    (h : i < (linspaceVals s t n).length) :
    (linspaceVals s t n).get ⟨i, h⟩ = s + (i : ℚ) * ((t - s) / (n : ℚ)) := by
  unfold linspaceVals at h ⊢
  simp only [List.get_eq_getElem, List.getElem_map, List.getElem_range]

theorem lookup_setKey_self (l : List (String × ℚ)) (k : String) (v : ℚ) :
    List.lookup k (setKey l k v) = some v := by
  induction l with
  | nil => simp [setKey, List.lookup]
  | cons hd tl ih =>
      obtain ⟨k0, v0⟩ := hd
      by_cases hk : k0 = k
      · simp [setKey, hk, List.lookup]
      · simp only [setKey, if_neg hk, List.lookup]
        have : (k == k0) = false := by
          simp [beq_eq_false_iff_ne]
          exact fun e => hk e.symm
        simp [this, ih]

theorem foldl_mul_init (l : List ℕ) (a : ℕ) :
    l.foldl (· * ·) a = a * l.prod := by
  induction l generalizing a with
  | nil => simp
  | cons hd tl ih => simp [List.foldl_cons, ih, List.prod_cons, mul_assoc]

theorem combinations_length (lens : List ℕ) :
    (combinations lens).length = lens.prod := by
  induction lens with
  | nil => simp [combinations]
  | cons L rest ih =>
      simp only [combinations, List.foldr_cons] at ih ⊢
      simp only [List.length_flatMap, Function.comp_def, List.length_map, ih,
        List.map_const', List.sum_replicate, smul_eq_mul, List.length_range,
        List.prod_cons]

theorem chunkFuel_flatMap_map {α β : Type} (f : α → β) (n : ℕ) (hn : 0 < n) :
    ∀ fuel (l : List α), l.length ≤ fuel →
      (chunkFuel n fuel l).flatMap (fun b => b.map f) = l.map f := by
  intro fuel
  induction fuel with
  | zero =>
      intro l hl
      have : l = [] := List.length_eq_zero.mp (Nat.le_zero.mp hl)
      subst this
      simp [chunkFuel]
  | succ fuel ih =>
      intro l hl
      cases l with
      | nil => simp [chunkFuel]
      | cons a l0 =>
          have hdrop : ((a :: l0).drop n).length ≤ fuel := by
            simp only [List.length_drop, List.length_cons]
            simp only [List.length_cons] at hl
            omega
          calc (chunkFuel n (fuel + 1) (a :: l0)).flatMap (fun b => b.map f)
              = ((a :: l0).take n).map f ++
                  (chunkFuel n fuel ((a :: l0).drop n)).flatMap (fun b => b.map f) := by
                simp [chunkFuel]
            _ = ((a :: l0).take n).map f ++ ((a :: l0).drop n).map f := by
                rw [ih _ hdrop]
            _ = (a :: l0).map f := by
                rw [← List.map_append, List.take_append_drop]

theorem chunkList_flatMap_map {α β : Type} (f : α → β) (n : ℕ) (hn : 0 < n)
    (l : List α) :
    (chunkList n l).flatMap (fun b => b.map f) = l.map f :=
  chunkFuel_flatMap_map f n hn l.length l le_rfl

theorem factoryGet_err (thetas : List ℚ) (t : PerturberType) (key : String)
    (i : ℤ) (h : i < 0 ∨ (thetas.length : ℤ) ≤ i) :
    factoryGet thetas t key i = .error .indexErr := by
  unfold factoryGet
  rw [dif_pos h]

theorem factoryGet_ok (thetas : List ℚ) (t : PerturberType) (key : String)
    (i : ℤ) (h0 : 0 ≤ i) (hl : i < (thetas.length : ℤ)) :
    ∃ p v, factoryGet thetas t key i = .ok p ∧
      thetas.get? i.toNat = some v ∧ List.lookup key p.config = some v := by
  have hn : i.toNat < thetas.length := by omega
  refine ⟨constructPerturber t key (thetas.get ⟨i.toNat, hn⟩),
    thetas.get ⟨i.toNat, hn⟩, ?_, ?_, ?_⟩
  · unfold factoryGet
    rw [dif_neg (by omega)]
  · rw [List.get?_eq_get hn]
  · exact lookup_setKey_self t.defaults key _

/-! Example factories used as concrete witnesses. -/

/-- The LinSpace factory of the spec scenario: start 1, stop 6, two samples. -/
def fEx : LinSpacePerturbImageFactory :=
  ⟨dummyPerturberType, "param_1", 1, 6, 2⟩

/-- A Step factory over the tested range 1, 6 with stride 2. -/
def gEx : StepPerturbImageFactory :=
  ⟨dummyPerturberType, "param_1", 1, 6, 2⟩

/-- A LinSpace factory with start equal to stop. -/
def fEmptyEx : LinSpacePerturbImageFactory :=
  ⟨dummyPerturberType, "param_1", 4, 4, 1⟩

/-- A Step factory with start equal to stop. -/
def gEmptyEx : StepPerturbImageFactory :=
  ⟨dummyPerturberType, "param_1", 4, 4, 1⟩

theorem fEx_thetas : fEx.thetas = .ok [1, 7 / 2] := by
  simp [fEx, LinSpacePerturbImageFactory.thetas, npLinspace, linspaceVals,
    dummyPerturberType, List.range_succ]
  norm_num

theorem gEx_thetas : gEx.thetas = [1, 3, 5] := by
  norm_num [gEx, StepPerturbImageFactory.thetas, npArange, arangeLen,
    Rat.ceil, intToNatOfNat, dummyPerturberType, List.range_succ]

/-! Claim theorems. -/

theorem numPerturberCombos_eq_prod (lens : List ℕ) (h : lens ≠ []) :
    numPerturberCombos lens = lens.prod := by
  unfold numPerturberCombos
  rw [if_pos (by simpa [List.length_eq_zero] using h)]
  rw [foldl_mul_init lens 1, one_mul]

/-- C1 counterexample: the generator test code computes the total combination
count for an empty factory collection as 0, not as the empty product 1
claimed for the n == 0 case. -/
theorem combination_count_empty_is_zero :
    numPerturberCombos [] = 0 ∧ List.prod ([] : List ℕ) = 1 ∧
      numPerturberCombos [] ≠ List.prod ([] : List ℕ) := by
  refine ⟨by simp [numPerturberCombos], by simp, by simp [numPerturberCombos]⟩

/-- C1 (amended): for a nonempty factory collection the total combination
count computed by generator_assertions equals the product of the factory
lengths, which is also the number of enumerated Cartesian-product
combinations; for an empty collection the computed count is 0. -/
theorem combination_count_product (lens : List ℕ) :
    (lens ≠ [] → numPerturberCombos lens = lens.prod ∧
      numPerturberCombos lens = (combinations lens).length) ∧
    numPerturberCombos [] = 0 := by
  constructor
  · intro h
    have h1 := numPerturberCombos_eq_prod lens h
    exact ⟨h1, h1.trans (combinations_length lens).symm⟩
  · simp [numPerturberCombos]

/-- C1 witness: the count for lengths 3 and 2 is 6 = 3 * 2, and the count
for the empty collection is 0. -/
theorem combination_count_product_witness :
    numPerturberCombos [3, 2] = 6 ∧ numPerturberCombos [] = 0 := by
  have h := (combination_count_product [3, 2]).1 (by simp)
  exact ⟨h.1.trans (by simp), (combination_count_product []).2⟩

/-- C5: when start equals stop, the LinSpace thetas and the Step thetas are
empty regardless of the count or stride, and both factories have length
zero. -/
theorem start_eq_stop_produces_empty (f : LinSpacePerturbImageFactory)
    (g : StepPerturbImageFactory) (hf : f.start = f.stop)
    (hg : g.start = g.stop) :
    f.thetas = .ok [] ∧ f.len = .ok 0 ∧ g.thetas = [] ∧ g.len = 0 := by
  have h1 : f.thetas = .ok [] := by
    simp [LinSpacePerturbImageFactory.thetas, hf]
  have h2 : g.thetas = [] := by
    unfold StepPerturbImageFactory.thetas npArange arangeLen
    rw [hg]
    by_cases hs : g.step = 0
    · simp [hs]
    · simp [hs]
  refine ⟨h1, ?_, h2, ?_⟩
  · unfold LinSpacePerturbImageFactory.len
    rw [h1]
    rfl
  · simp [StepPerturbImageFactory.len, h2]

/-- C5 witness: the factories over the degenerate range with start = stop = 4
produce no values and have length zero. -/
theorem start_eq_stop_produces_empty_witness :
    fEmptyEx.thetas = .ok [] ∧ fEmptyEx.len = .ok 0 ∧
      gEmptyEx.thetas = [] ∧ gEmptyEx.len = 0 :=
  start_eq_stop_produces_empty fEmptyEx gEmptyEx rfl rfl

/-- C6: indexing a factory with a negative index or one at or beyond the
length raises IndexError (never clamped); a valid index yields a fresh
perturber whose theta_key configuration entry is the indexed value. Stated
for the Step factory and for a LinSpace factory whose thetas evaluate. -/
theorem factory_indexing_contract (g : StepPerturbImageFactory)
    (f : LinSpacePerturbImageFactory) (ts : List ℚ) (i : ℤ)
    (hf : f.thetas = .ok ts) :
    ((i < 0 ∨ (g.len : ℤ) ≤ i) → g.get i = .error .indexErr) ∧
    (0 ≤ i → i < (g.len : ℤ) →
      ∃ p v, g.get i = .ok p ∧ g.thetas.get? i.toNat = some v ∧
        List.lookup g.theta_key p.config = some v) ∧
    ((i < 0 ∨ (ts.length : ℤ) ≤ i) → f.get i = .error .indexErr) ∧
    (0 ≤ i → i < (ts.length : ℤ) →
      ∃ p v, f.get i = .ok p ∧ ts.get? i.toNat = some v ∧
        List.lookup f.theta_key p.config = some v) := by
  have hfg : f.get i = factoryGet ts f.perturber f.theta_key i := by
    unfold LinSpacePerturbImageFactory.get
    rw [hf]
    rfl
  refine ⟨?_, ?_, ?_, ?_⟩
  · intro h
    exact factoryGet_err g.thetas g.perturber g.theta_key i h
  · intro h0 hl
    exact factoryGet_ok g.thetas g.perturber g.theta_key i h0 hl
  · intro h
    rw [hfg]
    exact factoryGet_err ts f.perturber f.theta_key i h
  · intro h0 hl
    rw [hfg]
    exact factoryGet_ok ts f.perturber f.theta_key i h0 hl

/-- C6 witness: indexing the length-3 Step factory at 3 raises IndexError,
and so does indexing the LinSpace scenario factory at 3. -/
theorem factory_indexing_contract_witness :
    gEx.get 3 = .error .indexErr ∧ fEx.get 3 = .error .indexErr := by
  have hlen : gEx.len = 3 := by
    simp [StepPerturbImageFactory.len, gEx_thetas]
  have h := factory_indexing_contract gEx fEx [1, 7 / 2] 3 fEx_thetas
  refine ⟨h.1 (Or.inr (by rw [hlen]; norm_num)), h.2.2.1 (Or.inr (by norm_num))⟩

/-- C8: two noise perturber instances freshly constructed from the same
bound seed value have identical generator states and produce identical
output streams over any common sequence of input images (the bound-seed
reproducibility of spec 5, as opposed to a shared generator object). -/
theorem seed_two_run_determinism (k : NoiseKind) (amount svp mean var : ℚ)
    (seed : ℕ) (imgs : List PImage) (p1 p2 : SKNoisePerturber)
    (h1 : p1 = mkSKNoisePerturber k amount svp mean var seed)
    (h2 : p2 = mkSKNoisePerturber k amount svp mean var seed) :
    p1.state = p2.state ∧ skApplySeq p1 imgs = skApplySeq p2 imgs := by
  subst h1
  subst h2
  exact ⟨rfl, rfl⟩

/-- C8 witness: two salt perturbers built from seed 42 agree on a two-image
run. -/
theorem seed_two_run_determinism_witness :
    skApplySeq (mkSKNoisePerturber .salt (1 / 2) 0 0 0 42)
        [⟨.uint8, [0, 255]⟩, ⟨.uint8, [17]⟩] =
      skApplySeq (mkSKNoisePerturber .salt (1 / 2) 0 0 0 42)
        [⟨.uint8, [0, 255]⟩, ⟨.uint8, [17]⟩] :=
  (seed_two_run_determinism .salt (1 / 2) 0 0 0 42
    [⟨.uint8, [0, 255]⟩, ⟨.uint8, [17]⟩] _ _ rfl rfl).2

/-- C9: a perturber constructed with a sensor and scenario fails its perturb
call with a ValueError naming the img_gsd key when that additional_params
entry is absent, and succeeds when it is present. -/
theorem otf_img_gsd_required (sim : ℚ → PImage → PImage)
    (simDefault : PImage → PImage) (params : List (String × ℚ))
    (img : PImage) :
    (List.lookup "img_gsd" params = none →
      otfPerturb sim simDefault true params img =
        .error (.valueErr "img_gsd must be present in image metadata")) ∧
    (∀ gsd, List.lookup "img_gsd" params = some gsd →
      otfPerturb sim simDefault true params img = .ok (sim gsd img)) := by
  constructor
  · intro h
    unfold otfPerturb
    rw [h]
    rfl
  · intro gsd h
    unfold otfPerturb
    rw [h]
    rfl

/-- C9 witness: with empty additional_params the call fails with the
ValueError naming img_gsd; with the entry present it succeeds. -/
theorem otf_img_gsd_required_witness :
    otfPerturb (fun _ im => im) id true [] ⟨.uint8, [0]⟩ =
      .error (.valueErr "img_gsd must be present in image metadata") ∧
    otfPerturb (fun _ im => im) id true [("img_gsd", 1 / 50)] ⟨.uint8, [0]⟩ =
      .ok ⟨.uint8, [0]⟩ := by
  refine ⟨(otf_img_gsd_required (fun _ im => im) id [] ⟨.uint8, [0]⟩).1 rfl, ?_⟩
  exact (otf_img_gsd_required (fun _ im => im) id [("img_gsd", 1 / 50)]
    ⟨.uint8, [0]⟩).2 (1 / 50) rfl

/-- C3: importing the exported configuration of a factory whose perturber
type is registered (the stored name resolves to that type through the
registry dictionary) reconstructs the factory exactly, hence with the same
produced value sequence, the same bound perturber type, the same theta_key,
and configuration-equal get outputs at every index; stated for the LinSpace
factory from src and the spec-modelled Step factory. -/
theorem config_roundtrip (impls : List PerturberType)
    (f : LinSpacePerturbImageFactory) (g : StepPerturbImageFactory)
    (hf : List.lookup f.perturber.name (typeDict impls) = some f.perturber)
    (hg : List.lookup g.perturber.name (typeDict impls) = some g.perturber) :
    LinSpacePerturbImageFactory.from_config impls f.get_config = .ok f ∧
    StepPerturbImageFactory.from_config impls g.get_config = .ok g ∧
    (∀ f2, LinSpacePerturbImageFactory.from_config impls f.get_config = .ok f2 →
      f2.thetas = f.thetas ∧ f2.perturber = f.perturber ∧
        f2.theta_key = f.theta_key ∧ ∀ i, f2.get i = f.get i) ∧
    (∀ g2, StepPerturbImageFactory.from_config impls g.get_config = .ok g2 →
      g2.thetas = g.thetas ∧ g2.perturber = g.perturber ∧
        g2.theta_key = g.theta_key ∧ ∀ i, g2.get i = g.get i) := by
  have h1 : LinSpacePerturbImageFactory.from_config impls f.get_config = .ok f := by
    unfold LinSpacePerturbImageFactory.from_config
      LinSpacePerturbImageFactory.get_config
    rw [hf]
  have h2 : StepPerturbImageFactory.from_config impls g.get_config = .ok g := by
    unfold StepPerturbImageFactory.from_config StepPerturbImageFactory.get_config
    rw [hg]
  refine ⟨h1, h2, ?_, ?_⟩
  · intro f2 hf2
    rw [h1] at hf2
    cases hf2
    exact ⟨rfl, rfl, rfl, fun i => rfl⟩
  · intro g2 hg2
    rw [h2] at hg2
    cases hg2
    exact ⟨rfl, rfl, rfl, fun i => rfl⟩

/-- C3 witness: with the DummyPerturber type registered, the scenario
factories round-trip through their exported configurations. -/
theorem config_roundtrip_witness :
    LinSpacePerturbImageFactory.from_config [dummyPerturberType]
      fEx.get_config = .ok fEx ∧
    StepPerturbImageFactory.from_config [dummyPerturberType]
      gEx.get_config = .ok gEx := by
  have h := config_roundtrip [dummyPerturberType] fEx gEx
    (by simp [typeDict, typeDict.setKeyT, fEx, dummyPerturberType, List.lookup])
    (by simp [typeDict, typeDict.setKeyT, gEx, dummyPerturberType, List.lookup])
  exact ⟨h.1, h.2.1⟩

/-- C7 counterexample: the in-src LinSpace from_config fails an unknown
perturber name with a raw KeyError lookup failure, which is not a
ValueError-class error. -/
theorem linspace_from_config_raw_keyerr :
    LinSpacePerturbImageFactory.from_config [dummyPerturberType]
        ⟨"not a perturber", "param_1", 1, 5, 2⟩ =
      .error (.keyErr "not a perturber") ∧
    PyErr.isValueErr (.keyErr "not a perturber") = false := by
  constructor
  · unfold LinSpacePerturbImageFactory.from_config
    simp [typeDict, typeDict.setKeyT, dummyPerturberType, List.lookup]
  · rfl

/-- C7 (amended): an unregistered perturber name makes the spec-modelled
Step from_config fail with a ValueError-class error identifying the name as
not a valid perturber, without constructing a factory; the in-src LinSpace
from_config instead surfaces the raw KeyError of the dictionary lookup. -/
theorem from_config_unknown_name (impls : List PerturberType)
    (cfgS : StepConfig) (cfgL : LinSpaceConfig)
    (hS : List.lookup cfgS.perturber (typeDict impls) = none)
    (hL : List.lookup cfgL.perturber (typeDict impls) = none) :
    StepPerturbImageFactory.from_config impls cfgS =
      .error (.valueErr (cfgS.perturber ++ " is not a valid perturber.")) ∧
    PyErr.isValueErr
      (.valueErr (cfgS.perturber ++ " is not a valid perturber.")) = true ∧
    LinSpacePerturbImageFactory.from_config impls cfgL =
      .error (.keyErr cfgL.perturber) := by
  refine ⟨?_, rfl, ?_⟩
  · unfold StepPerturbImageFactory.from_config
    rw [hS]
  · unfold LinSpacePerturbImageFactory.from_config
    rw [hL]

/-- C7 witness: the unknown name of the bad test configuration yields the
ValueError message of the test expectation from the Step import and the raw
KeyError from the LinSpace import. -/
theorem from_config_unknown_name_witness :
    StepPerturbImageFactory.from_config [dummyPerturberType]
        ⟨"not a perturber", "param_1", 1, 5, 2⟩ =
      .error (.valueErr "not a perturber is not a valid perturber.") ∧
    LinSpacePerturbImageFactory.from_config [dummyPerturberType]
        ⟨"not a perturber", "param_1", 1, 5, 2⟩ =
      .error (.keyErr "not a perturber") := by
  have h := from_config_unknown_name [dummyPerturberType]
    ⟨"not a perturber", "param_1", 1, 5, 2⟩
    ⟨"not a perturber", "param_1", 1, 5, 2⟩
    (by simp [typeDict, typeDict.setKeyT, dummyPerturberType, List.lookup])
    (by simp [typeDict, typeDict.setKeyT, dummyPerturberType, List.lookup])
  exact ⟨h.1, h.2.2⟩

/-- C4 counterexample: with start 6 greater than stop 1 and count 2 the
LinSpace factory produces the descending sequence 6, 3.5 — not an ascending
one — and with the negative count -1 it raises numpy's ValueError instead of
producing an empty sequence. -/
theorem linspace_not_ascending :
    LinSpacePerturbImageFactory.thetas ⟨dummyPerturberType, "param_1", 6, 1, 2⟩ =
      .ok [6, 7 / 2] ∧
    ¬ listAscending [6, 7 / 2] ∧
    LinSpacePerturbImageFactory.thetas ⟨dummyPerturberType, "param_1", 1, 6, -1⟩ =
      .error (.valueErr "Number of samples, -1, must be non-negative") := by
  refine ⟨?_, ?_, ?_⟩
  · simp [LinSpacePerturbImageFactory.thetas, npLinspace, linspaceVals,
      List.range_succ]
    norm_num
  · intro h
    have := h ⟨0, by norm_num⟩ ⟨1, by norm_num⟩ (by norm_num)
    simp [List.get] at this
    norm_num at this
  · simp [LinSpacePerturbImageFactory.thetas, npLinspace]
    rfl

/-- C4 (amended): for start distinct from stop and a nonnegative count, the
LinSpace factory produces exactly count values start + i * (stop - start) /
count, evenly spaced with common difference (stop - start) / count; when
start < stop they are ascending and lie in the half-open interval
[start, stop); a count of zero gives the empty sequence (covered by the
length clause), while a negative count raises numpy's ValueError; the
scenario factory over (1, 6) with count 2 produces [1.0, 3.5]. -/
theorem linspace_values_spec (f : LinSpacePerturbImageFactory)
    (h : f.start ≠ f.stop) :
    (0 ≤ f.step →
      f.thetas = .ok (linspaceVals f.start f.stop f.step.toNat) ∧
      (linspaceVals f.start f.stop f.step.toNat).length = f.step.toNat ∧
      evenlySpaced (linspaceVals f.start f.stop f.step.toNat)
        ((f.stop - f.start) / (f.step.toNat : ℚ)) ∧
      (f.start < f.stop →
        listAscending (linspaceVals f.start f.stop f.step.toNat) ∧
        ∀ x ∈ linspaceVals f.start f.stop f.step.toNat,
          f.start ≤ x ∧ x < f.stop)) ∧
    (f.step < 0 → f.thetas = .error (.valueErr
      ("Number of samples, " ++ toString f.step ++ ", must be non-negative"))) ∧
    fEx.thetas = .ok [1, 7 / 2] := by
  refine ⟨?_, ?_, fEx_thetas⟩
  · intro h0
    have hthetas : f.thetas = .ok (linspaceVals f.start f.stop f.step.toNat) := by
      unfold LinSpacePerturbImageFactory.thetas npLinspace
      rw [if_neg h, if_neg (not_lt.mpr h0)]
    refine ⟨hthetas, linspaceVals_length _ _ _, ?_, ?_⟩
    · intro i hilt
      rw [linspaceVals_get, linspaceVals_get]
      push_cast
      ring
    · intro hst
      constructor
      · rintro ⟨i, hi⟩ ⟨j, hj⟩ hij
        have hjn : j < f.step.toNat := by
          simpa [linspaceVals_length] using hj
        have hnpos : (0 : ℚ) < (f.step.toNat : ℚ) := by
          exact_mod_cast Nat.lt_of_le_of_lt (Nat.zero_le j) hjn
        have hqpos : 0 < (f.stop - f.start) / (f.step.toNat : ℚ) :=
          div_pos (sub_pos.mpr hst) hnpos
        rw [linspaceVals_get, linspaceVals_get]
        have hc : (i : ℚ) < (j : ℚ) := by exact_mod_cast hij
        exact add_lt_add_left (mul_lt_mul_of_pos_right hc hqpos) f.start
      · intro x hx
        unfold linspaceVals at hx
        obtain ⟨i, hi, rfl⟩ := List.mem_map.mp hx
        have hin : i < f.step.toNat := List.mem_range.mp hi
        have hnpos : (0 : ℚ) < (f.step.toNat : ℚ) := by
          exact_mod_cast Nat.lt_of_le_of_lt (Nat.zero_le i) hin
        have hqpos : 0 < (f.stop - f.start) / (f.step.toNat : ℚ) :=
          div_pos (sub_pos.mpr hst) hnpos
        constructor
        · have hnn : 0 ≤ (i : ℚ) * ((f.stop - f.start) / (f.step.toNat : ℚ)) :=
            mul_nonneg (by positivity) hqpos.le
          linarith
        · have hlt : (i : ℚ) * ((f.stop - f.start) / (f.step.toNat : ℚ)) <
              (f.step.toNat : ℚ) * ((f.stop - f.start) / (f.step.toNat : ℚ)) :=
            mul_lt_mul_of_pos_right (by exact_mod_cast hin) hqpos
          have hcancel : (f.step.toNat : ℚ) *
              ((f.stop - f.start) / (f.step.toNat : ℚ)) = f.stop - f.start :=
            mul_div_cancel₀ _ (ne_of_gt hnpos)
          linarith
  · intro hneg
    unfold LinSpacePerturbImageFactory.thetas npLinspace
    rw [if_neg h, if_pos hneg]

/-- C4 witness: the scenario factory over (1, 6) with count 2 produces its
two linspace values in ascending order. -/
theorem linspace_values_spec_witness :
    fEx.thetas = .ok (linspaceVals 1 6 2) ∧
    (linspaceVals 1 6 2).length = 2 ∧ listAscending (linspaceVals 1 6 2) := by
  have h := (linspace_values_spec fEx (by norm_num [fEx])).1 (by norm_num [fEx])
  exact ⟨h.1, h.2.1, (h.2.2.2 (by norm_num [fEx])).1⟩

/-- C2: the response generator returns a curve and a full-score table whose
common length is the combination count computed by the test code, each score
row has one entry per dataset item, and zero factories give two empty
outputs. -/
theorem generator_output_shape {Image Det GT : Type}
    (factories : List (GenFactory Image)) (detect : Image → Det)
    (score : GT → Det → ℚ) (aggregate : List ℚ → ℚ)
    (dataset : List (Image × GT)) (batchSize : ℕ) (hb : 0 < batchSize) :
    (generateBlackboxResponse factories detect score aggregate dataset
        batchSize).1.length =
      numPerturberCombos (factories.map fun f => f.instances.length) ∧
    (generateBlackboxResponse factories detect score aggregate dataset
        batchSize).2.length =
      numPerturberCombos (factories.map fun f => f.instances.length) ∧
    (∀ row ∈ (generateBlackboxResponse factories detect score aggregate
        dataset batchSize).2, row.length = dataset.length) ∧
    (factories = [] →
      (generateBlackboxResponse factories detect score aggregate dataset
        batchSize).1 = [] ∧
      (generateBlackboxResponse factories detect score aggregate dataset
        batchSize).2 = []) := by
  by_cases hemp : factories = []
  · subst hemp
    refine ⟨?_, ?_, ?_, fun _ => ⟨rfl, rfl⟩⟩ <;>
      simp [generateBlackboxResponse, numPerturberCombos]
  · have hne : factories.isEmpty = false := by
      simp [List.isEmpty_iff, hemp]
    have hlens : factories.map (fun f => f.instances.length) ≠ [] := by
      simp [hemp]
    have hcount := numPerturberCombos_eq_prod
      (factories.map fun f => f.instances.length) hlens
    have hlen2 : (generateBlackboxResponse factories detect score aggregate
        dataset batchSize).2.length =
        numPerturberCombos (factories.map fun f => f.instances.length) := by
      simp only [generateBlackboxResponse, hne]
      simp [List.length_map, combinations_length, hcount]
    refine ⟨?_, hlen2, ?_, fun he => absurd he hemp⟩
    · simpa only [generateBlackboxResponse, List.length_map] using hlen2
    · intro row hrow
      simp only [generateBlackboxResponse, hne, List.mem_map] at hrow
      obtain ⟨combo, hcombo, hrowEq⟩ := hrow
      subst hrowEq
      rw [chunkList_flatMap_map detect batchSize hb]
      simp [List.length_zipWith, List.length_map]

/-- C2 witness: one single-instance factory over a one-item dataset with
batch size 1 yields a curve of the computed combination count. -/
theorem generator_output_shape_witness :
    (generateBlackboxResponse [GenFactory.mk [fun (x : ℚ) => x]]
        (fun (x : ℚ) => x) (fun (g : ℚ) (d : ℚ) => g - d) List.sum
        [((1 : ℚ), (1 : ℚ))] 1).1.length =
      numPerturberCombos
        ([GenFactory.mk [fun (x : ℚ) => x]].map fun f => f.instances.length) ∧
    (generateBlackboxResponse [GenFactory.mk [fun (x : ℚ) => x]]
        (fun (x : ℚ) => x) (fun (g : ℚ) (d : ℚ) => g - d) List.sum
        [((1 : ℚ), (1 : ℚ))] 1).2.length =
      numPerturberCombos
        ([GenFactory.mk [fun (x : ℚ) => x]].map fun f => f.instances.length) := by
  have h := generator_output_shape [GenFactory.mk [fun (x : ℚ) => x]]
    (fun (x : ℚ) => x) (fun (g : ℚ) (d : ℚ) => g - d) List.sum
    [((1 : ℚ), (1 : ℚ))] 1 (by norm_num)
  exact ⟨h.1, h.2.1⟩

/-! Pixel-level helper lemmas for the zero-noise identity. -/

theorem mapIdx_self {α : Type} (l : List α) (f : ℕ → α → α)
    (h : ∀ (i : ℕ) (hi : i < l.length), f i (l.get ⟨i, hi⟩) = l.get ⟨i, hi⟩) :
    l.mapIdx f = l := by
  apply List.ext_getElem
  · simp
  · intro i h1 h2
    simp only [List.getElem_mapIdx]
    exact h i h2

theorem float01_roundtrip (d : DType) (x : ℚ) (hx : validPixel d x) :
    fromFloat01 d (toFloat01 d x) = x := by
  cases d with
  | uint8 =>
      obtain ⟨hden, _, _⟩ := hx
      have hxint : ((x.num : ℤ) : ℚ) = x := (Rat.den_eq_one_iff x).mp hden
      calc fromFloat01 .uint8 (toFloat01 .uint8 x)
          = ((round (x / 255 * 255) : ℤ) : ℚ) := by simp [toFloat01, fromFloat01]
        _ = ((round x : ℤ) : ℚ) := by
            rw [div_mul_cancel₀ x (by norm_num : (255 : ℚ) ≠ 0)]
        _ = x := by rw [← hxint, round_intCast]
  | float32 => simp [toFloat01, fromFloat01]
  | float16 => simp [toFloat01, fromFloat01]
  | csingle => simp [toFloat01, fromFloat01]

theorem toFloat01_mem01 (d : DType) (x : ℚ) (hd : d ≠ .csingle)
    (hx : validPixel d x) : 0 ≤ toFloat01 d x ∧ toFloat01 d x ≤ 1 := by
  cases d with
  | uint8 =>
      obtain ⟨_, h0, h255⟩ := hx
      constructor
      · simp only [toFloat01, if_true, eq_self_iff_true]
        positivity
      · simp only [toFloat01, if_true, eq_self_iff_true]
        rw [div_le_one (by norm_num : (0:ℚ) < 255)]
        exact h255
  | float32 => simpa [toFloat01] using hx
  | float16 => simpa [toFloat01] using hx
  | csingle => exact absurd rfl hd

theorem zero_noise_pixel (d : DType) (hd : d ≠ .csingle) (rng : NoiseRng)
    (hr : ∀ i, 0 ≤ rng.rand i) (k : NoiseKind) (svp : ℚ) (i : ℕ) (x : ℚ)
    (hx : validPixel d x) :
    fromFloat01 d (noisePixel k 0 svp 0 0 rng i (toFloat01 d x)) = x := by
  have hnotlt : ¬ rng.rand i < 0 := not_lt.mpr (hr i)
  have hmem := toFloat01_mem01 d x hd hx
  have hclip : clip01 (toFloat01 d x) = toFloat01 d x := by
    unfold clip01
    rw [min_eq_left hmem.2, max_eq_right hmem.1]
  cases k with
  | salt =>
      rw [show noisePixel .salt 0 svp 0 0 rng i (toFloat01 d x) = toFloat01 d x by
        simp [noisePixel, hnotlt]]
      exact float01_roundtrip d x hx
  | pepper =>
      rw [show noisePixel .pepper 0 svp 0 0 rng i (toFloat01 d x) = toFloat01 d x by
        simp [noisePixel, hnotlt]]
      exact float01_roundtrip d x hx
  | saltAndPepper =>
      rw [show noisePixel .saltAndPepper 0 svp 0 0 rng i (toFloat01 d x) = toFloat01 d x by
        simp [noisePixel, hnotlt]]
      exact float01_roundtrip d x hx
  | gaussian =>
      rw [show noisePixel .gaussian 0 svp 0 0 rng i (toFloat01 d x) = toFloat01 d x by
        simp [noisePixel, normalDraw, hclip]]
      exact float01_roundtrip d x hx
  | speckle =>
      rw [show noisePixel .speckle 0 svp 0 0 rng i (toFloat01 d x) = toFloat01 d x by
        simp [noisePixel, normalDraw, hclip]]
      exact float01_roundtrip d x hx

/-- C10: on a valid image of a supported dtype (uint8, float32, float16),
every noise perturber with zero noise magnitude — amount 0 for the
salt/pepper family, mean 0 and variance 0 for gaussian and speckle —
returns the input image unchanged, while a complex-dtype image makes every
noise perturber fail with NotImplementedError. -/
theorem zero_noise_identity (img : PImage) (rng : NoiseRng) (svp : ℚ)
    (hv : validImage img) (hr : ∀ i, 0 ≤ rng.rand i) :
    (img.dtype ≠ .csingle →
      noisePerturb .salt 0 svp 0 0 rng img = .ok img ∧
      noisePerturb .pepper 0 svp 0 0 rng img = .ok img ∧
      noisePerturb .saltAndPepper 0 svp 0 0 rng img = .ok img ∧
      noisePerturb .gaussian 0 svp 0 0 rng img = .ok img ∧
      noisePerturb .speckle 0 svp 0 0 rng img = .ok img) ∧
    (img.dtype = .csingle → ∀ k amount mean var,
      noisePerturb k amount svp mean var rng img =
        .error (.notImplErr "Perturb not implemented for complex64")) := by
  constructor
  · intro hd
    have hok : ∀ k : NoiseKind, noisePerturb k 0 svp 0 0 rng img = .ok img := by
      intro k
      unfold noisePerturb
      rw [if_neg hd]
      have hmap : img.pixels.mapIdx (fun i x => fromFloat01 img.dtype
          (noisePixel k 0 svp 0 0 rng i (toFloat01 img.dtype x))) = img.pixels := by
        apply mapIdx_self
        intro i hi
        exact zero_noise_pixel img.dtype hd rng hr k svp i _
          (hv _ (List.get_mem _ _ _))
      rw [hmap]
    exact ⟨hok .salt, hok .pepper, hok .saltAndPepper, hok .gaussian, hok .speckle⟩
  · intro hd k amount mean var
    unfold noisePerturb
    rw [if_pos hd, hd]
    rfl

/-- All-zero draw streams, used as a concrete witness generator. -/
def rngZeros : NoiseRng :=
  ⟨fun _ => 0, fun _ => 0, fun _ => 0⟩

/-- C10 witness: the zero-amount salt perturber and the zero-mean
zero-variance gaussian perturber return the uint8 image with pixels 0 and
255 unchanged. -/
theorem zero_noise_identity_witness :
    noisePerturb .salt 0 0 0 0 rngZeros ⟨.uint8, [0, 255]⟩ =
      .ok ⟨.uint8, [0, 255]⟩ ∧
    noisePerturb .gaussian 0 0 0 0 rngZeros ⟨.uint8, [0, 255]⟩ =
      .ok ⟨.uint8, [0, 255]⟩ := by
  have hv : validImage ⟨.uint8, [0, 255]⟩ := by
    intro x hx
    simp only [List.mem_cons, List.not_mem_nil, or_false] at hx
    rcases hx with rfl | rfl
    · exact ⟨rfl, by norm_num, by norm_num⟩
    · exact ⟨rfl, by norm_num, by norm_num⟩
  have h := (zero_noise_identity ⟨.uint8, [0, 255]⟩ rngZeros 0 hv
    (fun _ => le_refl 0)).1 (by simp)
  exact ⟨h.1, h.2.2.2.1⟩

end Nrtk
